import Mathlib

/-!
# Bergfex HTML extraction engine — verification development

Shallow embedding of the parsing engine of the `bergfex` Home Assistant
integration: the downhill overview parser (`parse_overview_data` in
`sensor.py`), the resort directory extractor (`get_ski_areas` in
`config_flow.py`), and the date normalizer of the cross-country parser
(modelled from the spec, since `parser.py` only appears through its tests).

Following the design notes of the spec, the HTML document is modelled as an
explicit tree abstraction exposing exactly the capability-based queries the
parsers use: find a table by class, list a table's rows in document order
(`find_all("tr")`), list a row's cells (`find_all("td")`), the first `<a>`
descendant of a cell or row, the `data-value` attribute and visible text of a
cell, and the `<div>` descendants of a cell with their class lists.
Python dicts are modelled as association lists with insert-or-overwrite
semantics preserving first-insertion order; Python `None` is the `Value.null`
constructor.
-/

namespace Bergfex

/-- An `<a>` element: optional `href` attribute and visible text.
`link.get("href")` on an element without the attribute returns `None`,
modelled by `href = none`. -/
structure Link where
  href : Option String
  text : String
deriving DecidableEq

/-- A `<div>` element inside a cell, carrying its list of CSS classes
(BeautifulSoup's `get("class", [])`). -/
structure Div where
  classes : List String
deriving DecidableEq

/-- A `<td>` cell: its `data-value` attribute (`none` when the attribute is
absent from the tag), its visible text (`cell.text`), and its `<a>` and
`<div>` descendants in document order. -/
structure Cell where
  dataValue : Option String
  text : String
  links : List Link
  divs : List Div
deriving DecidableEq

/-- A `<tr>` row: its `<td>` cells in document order (`row.find_all("td")`). -/
structure Row where
  cells : List Cell
deriving DecidableEq

/-- A `<table>` element: its CSS classes and its `<tr>` rows in document
order (`table.find_all("tr")`, header row included). -/
structure Table where
  classes : List String
  rows : List Row
deriving DecidableEq

/-- A parsed HTML document, exposing its tables in document order. -/
structure Html where
  tables : List Table
deriving DecidableEq

/-- `soup.find("table", class_="snow")`: the first table whose class list
contains `"snow"`. -/
def findSnowTable (doc : Html) : Option Table :=
  doc.tables.find? (fun t => t.classes.contains "snow")

/-- `cell.find("div", class_="icon-status")`: the first `<div>` descendant
whose class list contains the exact class token `"icon-status"`. -/
def findStatusDiv (c : Cell) : Option Div :=
  c.divs.find? (fun d => d.classes.contains "icon-status")

/-- `cols[0].find("a")`: the first `<a>` descendant of a cell. -/
def cellFindA (c : Cell) : Option Link :=
  c.links.head?

/-- `row.find("a")`: the first `<a>` descendant anywhere in the row
(document order across its cells). -/
def rowFindA (r : Row) : Option Link :=
  (r.cells.map Cell.links).flatten.head?

/-- Drop leading and trailing whitespace from a character list (Python's
`str.strip()` with no argument, restricted to ASCII whitespace). -/
def trimChars (cs : List Char) : List Char :=
  ((cs.dropWhile Char.isWhitespace).reverse.dropWhile Char.isWhitespace).reverse

/-- Model of Python's `str.strip()`, as a `String` operation. -/
def pyStrip (s : String) : String :=
  ⟨trimChars s.data⟩

/-- Model of Python's `str.split(sep)` for a one-character separator:
every occurrence of the separator ends a (possibly empty) part. -/
def splitChar (sep : Char) : List Char → List (List Char)
  | [] => [[]]
  | c :: rest =>
    if c = sep then [] :: splitChar sep rest
    else
      match splitChar sep rest with
      | p :: ps => (c :: p) :: ps
      | [] => [[c]]

/-- The numeric value of a list of decimal digits. -/
def digitsToNat (cs : List Char) : Nat :=
  cs.foldl (fun acc c => acc * 10 + (c.toNat - '0'.toNat)) 0

/-- Model of Python's `int(s)` on a string: surrounding whitespace is
ignored, then an optional sign followed by one or more decimal digits.
(Python's `int` additionally accepts underscore digit grouping and non-ASCII
digits, which the pages this engine targets never produce; the model is
ASCII-only.) Returns `none` where `int` raises `ValueError`. -/
def strToInt (s : String) : Option Int :=
  let cs := trimChars s.data
  let signDigits : Int × List Char :=
    match cs with
    | '+' :: rest => (1, rest)
    | '-' :: rest => (-1, rest)
    | _ => (1, cs)
  if signDigits.2 ≠ [] ∧ signDigits.2.all Char.isDigit then
    some (signDigits.1 * (digitsToNat signDigits.2 : Nat))
  else
    none

/-- Model of Python's `str.isdigit()` restricted to ASCII: non-empty and
all decimal digits. -/
def isAllDigits (s : String) : Bool :=
  !s.data.isEmpty && s.data.all Char.isDigit

/-- Lines 162–181 of `sensor.py`: parse the lift cell's stripped visible
text into `(lifts_open, lifts_total)`.  A string containing `/` is split on
`/`; exactly two parts are required and each side is converted with `int`
independently (a failing side stays `none` while the other is kept).
Otherwise a string of digits yields only the open count; anything else
yields neither. -/
def parseLifts (raw : String) : Option Int × Option Int :=
  if raw.data.contains '/' then
    match splitChar '/' raw.data with
    | [a, b] => (strToInt (pyStrip ⟨a⟩), strToInt (pyStrip ⟨b⟩))
    | _ => (none, none)
  else if isAllDigits raw then
    (strToInt raw, none)
  else
    (none, none)

/-- A value bound in an `area_data` dict: Python `None`, a string, or an
`int`. -/
inductive Value where
  | null
  | str (s : String)
  | int (n : Int)
deriving DecidableEq

/-- `cols[i].get("data-value")`: the attribute's string when present,
Python `None` otherwise. -/
def ofAttr : Option String → Value
  | none => Value.null
  | some s => Value.str s

/-- Lines 153–160 of `sensor.py`: the status string derived from the status
div's class list; `icon-status1` wins over `icon-status0`, any other
class list with the `icon-status` marker yields `"Unknown"`. -/
def statusName (d : Div) : String :=
  if d.classes.contains "icon-status1" then "Open"
  else if d.classes.contains "icon-status0" then "Closed"
  else "Unknown"

/-- A binding that is added to the dict only when the optional value is
present (`if lifts_open is not None: ...`). -/
def optEntry (k : String) : Option Value → List (String × Value)
  | some v => [(k, v)]
  | none => []

/-- Lines 152–160 of `sensor.py`: the optional status value — present
exactly when the lift cell has an `icon-status` div. -/
def statusVal (c : Cell) : Option Value :=
  (findStatusDiv c).map (fun d => Value.str (statusName d))

/-- Lines 188–192 of `sensor.py`: the last-update value — the final cell's
`data-value` when the attribute is present in `cols[5].attrs`, else the
cell's stripped text. -/
def lastUpdateVal (c : Cell) : Value :=
  match c.dataValue with
  | some v => Value.str v
  | none => Value.str (pyStrip c.text)

/-- Lines 143–192 of `sensor.py`: the `area_data` dict built for one row,
before the `"-"`/`""` cleanup, in Python insertion order: the three
`data-value` snow fields, the optional status, the optional lift counts,
and the last-update value. -/
def rowData (c1 c2 c3 c4 c5 : Cell) : List (String × Value) :=
  [("snow_valley", ofAttr c1.dataValue),
   ("snow_mountain", ofAttr c2.dataValue),
   ("new_snow", ofAttr c3.dataValue)]
  ++ optEntry "status" (statusVal c4)
  ++ optEntry "lifts_open_count" ((parseLifts (pyStrip c4.text)).1.map Value.int)
  ++ optEntry "lifts_total_count" ((parseLifts (pyStrip c4.text)).2.map Value.int)
  ++ [("last_update", lastUpdateVal c5)]

/-- Line 195 of `sensor.py`: `{k: v for k, v in area_data.items() if v not
in ("-", "")}` — drop bindings whose value equals the string `"-"` or the
empty string; `None` and `int` values always survive. -/
def cleanup (l : List (String × Value)) : List (String × Value) :=
  l.filter (fun p => p.2 ≠ Value.str "-" ∧ p.2 ≠ Value.str "")

/-- Lines 134–195 of `sensor.py` for a single `<tr>`: `none` when the row is
skipped (fewer than 6 cells, or the first cell has no `<a>`, or the link has
no `href`, or the `href` is the empty string — Python truthiness), otherwise
the record key (the `href`) and the cleaned `area_data` dict. -/
def parseRow (r : Row) : Option (String × List (String × Value)) :=
  match r.cells with
  | c0 :: c1 :: c2 :: c3 :: c4 :: c5 :: _ =>
    match cellFindA c0 with
    | some link =>
      match link.href with
      | some h =>
        if h = "" then none
        else some (h, cleanup (rowData c1 c2 c3 c4 c5))
      | none => none
    | none => none
  | _ => none

/-- Python dict assignment `m[k] = v`: overwrite in place when the key
exists (keeping its position), append otherwise. -/
def dinsert {α : Type} (m : List (String × α)) (k : String) (v : α) :
    List (String × α) :=
  if m.any (fun p => p.1 = k) then
    m.map (fun p => if p.1 = k then (k, v) else p)
  else
    m ++ [(k, v)]

/-- One iteration of the row loop of either parser: when the row
contributes a key/value pair, assign it into the dict; otherwise leave the
dict unchanged (`continue`). -/
def dstep {β : Type} (f : Row → Option (String × β))
    (acc : List (String × β)) (r : Row) : List (String × β) :=
  match f r with
  | some pd => dinsert acc pd.1 pd.2
  | none => acc

/-- `parse_overview_data` (lines 123–197 of `sensor.py`): locate the `snow`
table (empty dict when absent), skip the header row, and fold the surviving
rows into a dict keyed by each row's link target. -/
def parse_overview_data (doc : Html) : List (String × List (String × Value)) :=
  match findSnowTable doc with
  | none => []
  | some t => (t.rows.drop 1).foldl (dstep parseRow) []

/-- Lines 34–41 of `config_flow.py` for a single `<tr>`: the directory
entry contributed by a row — its first `<a>` anywhere in the row, kept when
the link has a non-empty `href` and a non-empty stripped text (`if link and
link.get("href")` then `if name and url_path`). -/
def resortEntry (r : Row) : Option (String × String) :=
  match rowFindA r with
  | some link =>
    match link.href with
    | some h =>
      if h = "" then none
      else if pyStrip link.text = "" then none
      else some (h, pyStrip link.text)
    | none => none
  | none => none

/-- The parsing part of `get_ski_areas` (lines 25–42 of `config_flow.py`):
locate the `snow` table (empty dict when absent), skip the header row, and
collect each row's first link into a `url_path → name` dict. -/
def get_ski_areas_parse (doc : Html) : List (String × String) :=
  match findSnowTable doc with
  | none => []
  | some t => (t.rows.drop 1).foldl (dstep resortEntry) []

/-- The body of `get_ski_areas`'s `try` block (lines 18–42 of
`config_flow.py`): the fetch may fail (modelled as an `Except` input
standing for `session.get`/`raise_for_status`/`text()`), and on success the
already-retrieved HTML is parsed. -/
def get_ski_areas_body (fetched : Except String Html) :
    Except String (List (String × String)) := do
  let doc ← fetched
  pure (get_ski_areas_parse doc)

/-- `get_ski_areas` (lines 16–45 of `config_flow.py`): the whole body runs
under `try`/`except Exception`, and any error is logged and replaced by an
empty dict.  The result is `Except`-valued so that "no exception escapes"
is expressible: an escaping exception would be an `Except.error`. -/
def get_ski_areas (fetched : Except String Html) :
    Except String (List (String × String)) :=
  match get_ski_areas_body fetched with
  | Except.ok m => Except.ok m
  | Except.error _ => Except.ok []

/-- A calendar date, as used by the cross-country date normalizer. -/
structure Date where
  year : Nat
  month : Nat
  day : Nat
deriving DecidableEq

/-- A timestamp: a calendar date plus hour and minute. -/
structure Timestamp where
  date : Date
  hour : Nat
  minute : Nat
deriving DecidableEq

/-- The suffix of `text` after the first occurrence of `pat`, or `none`
when `pat` does not occur (`pat` is assumed non-empty by its callers). -/
def suffixAfter : List Char → List Char → Option (List Char)
  | [], _ => none
  | c :: rest, pat =>
    if pat.isPrefixOf (c :: rest) then some ((c :: rest).drop pat.length)
    else suffixAfter rest pat

/-- Lower-case a character list (case-insensitive keyword matching). -/
def lowerChars (cs : List Char) : List Char :=
  cs.map Char.toLower

/-- Case-insensitive substring test, as the cross-country parser matches
the "today" keyword against the timestamp cell's text. -/
def containsCI (text pat : String) : Bool :=
  (suffixAfter (lowerChars text.data) (lowerChars pat.data)).isSome

/-- Parse a `"HH:MM"`-shaped string into hour and minute. -/
def parseHM (s : String) : Option (Nat × Nat) :=
  match splitChar ':' s.data with
  | [h, m] =>
    let h := trimChars h
    let m := trimChars m
    if h ≠ [] ∧ h.all Char.isDigit ∧ m ≠ [] ∧ m.all Char.isDigit then
      some (digitsToNat h, digitsToNat m)
    else none
  | _ => none

/-- Parse an absolute `"DD.MM.YYYY, HH:MM"`-shaped string. -/
def parseAbsoluteDate (s : String) : Option Timestamp :=
  match splitChar ',' s.data with
  | [d, t] =>
    match splitChar '.' (trimChars d) with
    | [dd, mm, yyyy] =>
      if dd ≠ [] ∧ dd.all Char.isDigit ∧ mm ≠ [] ∧ mm.all Char.isDigit ∧
          yyyy ≠ [] ∧ yyyy.all Char.isDigit then
        (parseHM ⟨trimChars t⟩).map (fun hm =>
          ⟨⟨digitsToNat yyyy, digitsToNat mm, digitsToNat dd⟩, hm.1, hm.2⟩)
      else none
    | _ => none
  | _ => none

/-- Modelled from the spec: the date normalizer
`parse_relative_or_absolute(text, today_keyword, reference_date)` of the
cross-country parser, whose module (`parser.py`) is not under `src/` (only
its tests are).  Per §4.2/§4.3 of the spec: the text is matched against the
"today" keyword case-insensitively; when present the keyword is resolved to
the explicitly supplied reference date and the `", HH:MM"`-shaped remainder
supplies the time; otherwise the text is parsed as an absolute date;
`none` on any failure. -/
def parse_relative_or_absolute (text todayKw : String) (refDate : Date) :
    Option Timestamp :=
  if containsCI text todayKw then
    match suffixAfter (lowerChars text.data) (lowerChars todayKw.data) with
    | some rest =>
      let rest := trimChars rest
      let rest := match rest with
        | ',' :: r => trimChars r
        | _ => rest
      (parseHM ⟨rest⟩).map (fun hm => ⟨refDate, hm.1, hm.2⟩)
    | none => none
  else
    parseAbsoluteDate text

/-! ## Concrete documents used by scenario and counterexample theorems -/

/-- Scenario A data row: link `/x`, valley `45`, mountain `-`, new snow `5`,
lift cell text `3/8` with an open status marker, last-update `data-value`
`2024-01-15T08:00`. -/
def rowA : Row :=
  ⟨[⟨none, "Resort X", [⟨some "/x", "Resort X"⟩], []⟩,
    ⟨some "45", "45", [], []⟩,
    ⟨some "-", "-", [], []⟩,
    ⟨some "5", "5", [], []⟩,
    ⟨none, "3/8", [], [⟨["icon-status", "icon-status1"]⟩]⟩,
    ⟨some "2024-01-15T08:00", "15.01., 08:00", [], []⟩]⟩

/-- Scenario A snow table: a header row followed by `rowA`. -/
def tableA : Table := ⟨["snow"], [⟨[]⟩, rowA]⟩

/-- Scenario A overview document. -/
def docA : Html := ⟨[tableA]⟩

/-- A six-cell row whose numeric cells all lack the `data-value`
attribute. -/
def rowNoAttr : Row :=
  ⟨[⟨none, "X", [⟨some "/x", "X"⟩], []⟩,
    ⟨none, "", [], []⟩,
    ⟨none, "", [], []⟩,
    ⟨none, "", [], []⟩,
    ⟨none, "", [], []⟩,
    ⟨none, "", [], []⟩]⟩

/-- Overview document whose single data row lacks every `data-value`
attribute. -/
def docNoAttr : Html := ⟨[⟨["snow"], [⟨[]⟩, rowNoAttr]⟩]⟩

/-- A single-cell row containing a link: fewer than 6 cells. -/
def rowShort : Row := ⟨[⟨none, "A", [⟨some "/a", "A"⟩], []⟩]⟩

/-- The snow table holding only the header and the single-cell row. -/
def tableShort : Table := ⟨["snow"], [⟨[]⟩, rowShort]⟩

/-- Overview document whose only data row has a single cell. -/
def docShort : Html := ⟨[tableShort]⟩

/-- The record Scenario A's row parses to. -/
def recA : List (String × Value) :=
  [("snow_valley", Value.str "45"),
   ("new_snow", Value.str "5"),
   ("status", Value.str "Open"),
   ("lifts_open_count", Value.int 3),
   ("lifts_total_count", Value.int 8),
   ("last_update", Value.str "2024-01-15T08:00")]

/-- A row whose lift cell text is `"3/x"`: a numeric open side and a
non-numeric total side. -/
def rowMixedLifts : Row :=
  ⟨[⟨none, "Y", [⟨some "/y", "Y"⟩], []⟩,
    ⟨some "1", "1", [], []⟩,
    ⟨some "1", "1", [], []⟩,
    ⟨some "1", "1", [], []⟩,
    ⟨none, "3/x", [], []⟩,
    ⟨some "t", "t", [], []⟩]⟩

/-- The record `rowMixedLifts` parses to: the open count survives, the
total count is omitted, the other fields are populated. -/
def recMixedLifts : List (String × Value) :=
  [("snow_valley", Value.str "1"),
   ("snow_mountain", Value.str "1"),
   ("new_snow", Value.str "1"),
   ("lifts_open_count", Value.int 3),
   ("last_update", Value.str "t")]

/-- Whether an `Except` result is a success (no exception escaped). -/
def exceptIsOk {ε α : Type} : Except ε α → Bool
  | Except.ok _ => true
  | Except.error _ => false

/-! ## Helper lemmas -/

/-- A lookup misses a list none of whose keys is `k`. -/
theorem lookup_eq_none_of_keys {β : Type} {k : String} :
    ∀ {l : List (String × β)}, (∀ p ∈ l, p.1 ≠ k) → List.lookup k l = none := by
  intro l
  induction l with
  | nil => intro _; rfl
  | cons a t ih =>
    intro h
    obtain ⟨a1, a2⟩ := a
    have ha : a1 ≠ k := h (a1, a2) (by simp)
    have hk : (k == a1) = false := by simpa [beq_iff_eq] using Ne.symm ha
    simpa [List.lookup, hk] using ih (fun p hp => h p (by simp [hp]))

/-- The cleanup filter unfolded one binding at a time. -/
theorem cleanup_cons (a : String × Value) (t : List (String × Value)) :
    cleanup (a :: t) =
      if a.2 = Value.str "-" ∨ a.2 = Value.str "" then cleanup t
      else a :: cleanup t := by
  by_cases h : a.2 = Value.str "-" ∨ a.2 = Value.str ""
  · rcases h with h | h <;> simp [cleanup, List.filter_cons, h]
  · push_neg at h
    simp [cleanup, List.filter_cons, h.1, h.2]

/-- On a dict with pairwise-distinct keys, looking a key up after the
`"-"`/`""` cleanup filters the uncleaned lookup's value. -/
theorem lookup_cleanup {k : String} :
    ∀ {l : List (String × Value)}, (l.map Prod.fst).Nodup →
      List.lookup k (cleanup l) =
        (List.lookup k l).bind
          (fun v => if v = Value.str "-" ∨ v = Value.str "" then none else some v) := by
  intro l
  induction l with
  | nil => intro _; rfl
  | cons a t ih =>
    intro h
    obtain ⟨a1, a2⟩ := a
    have hnd : (t.map Prod.fst).Nodup := (List.nodup_cons.mp (by simpa using h)).2
    have hnm : a1 ∉ t.map Prod.fst := (List.nodup_cons.mp (by simpa using h)).1
    rw [cleanup_cons]
    by_cases hk : k = a1
    · subst hk
      by_cases hkeep : a2 = Value.str "-" ∨ a2 = Value.str ""
      · rw [if_pos hkeep]
        have hnone : List.lookup k (cleanup t) = none := by
          refine lookup_eq_none_of_keys (fun p hp => ?_)
          have hpt : p ∈ t := List.mem_of_mem_filter hp
          intro hpk
          exact hnm (hpk ▸ List.mem_map_of_mem Prod.fst hpt)
        simp [List.lookup, hnone, hkeep]
      · rw [if_neg hkeep]
        simp [List.lookup, hkeep]
    · have hkb : (k == a1) = false := by simpa [beq_iff_eq] using hk
      by_cases hkeep : a2 = Value.str "-" ∨ a2 = Value.str ""
      · rw [if_pos hkeep]
        simpa [List.lookup, hkb] using ih hnd
      · rw [if_neg hkeep]
        simpa [List.lookup, hkb] using ih hnd

/-- The keys of an uncleaned row dict are pairwise distinct. -/
theorem rowData_keys_nodup (c1 c2 c3 c4 c5 : Cell) :
    ((rowData c1 c2 c3 c4 c5).map Prod.fst).Nodup := by
  rcases hs : statusVal c4 with _ | v <;>
    rcases h1 : (parseLifts (pyStrip c4.text)).1 with _ | n1 <;>
      rcases h2 : (parseLifts (pyStrip c4.text)).2 with _ | n2 <;>
        simp [rowData, optEntry, hs, h1, h2]

/-- Lookup of each of the seven possible keys in the uncleaned row dict. -/
theorem rowData_lookup (c1 c2 c3 c4 c5 : Cell) :
    List.lookup "snow_valley" (rowData c1 c2 c3 c4 c5) = some (ofAttr c1.dataValue)
  ∧ List.lookup "snow_mountain" (rowData c1 c2 c3 c4 c5) = some (ofAttr c2.dataValue)
  ∧ List.lookup "new_snow" (rowData c1 c2 c3 c4 c5) = some (ofAttr c3.dataValue)
  ∧ List.lookup "status" (rowData c1 c2 c3 c4 c5) = statusVal c4
  ∧ List.lookup "lifts_open_count" (rowData c1 c2 c3 c4 c5)
      = (parseLifts (pyStrip c4.text)).1.map Value.int
  ∧ List.lookup "lifts_total_count" (rowData c1 c2 c3 c4 c5)
      = (parseLifts (pyStrip c4.text)).2.map Value.int
  ∧ List.lookup "last_update" (rowData c1 c2 c3 c4 c5) = some (lastUpdateVal c5) := by
  rcases hs : statusVal c4 with _ | v <;>
    rcases h1 : (parseLifts (pyStrip c4.text)).1 with _ | n1 <;>
      rcases h2 : (parseLifts (pyStrip c4.text)).2 with _ | n2 <;>
        simp [rowData, optEntry, hs, h1, h2, List.lookup]

/-- Inversion of `parseRow` on a row with at least six cells: the record is
the cleaned row dict, and the key is the first link's non-empty target. -/
theorem parseRow_inv {c0 c1 c2 c3 c4 c5 : Cell} {rest : List Cell}
    {path : String} {data : List (String × Value)}
    (h : parseRow ⟨c0 :: c1 :: c2 :: c3 :: c4 :: c5 :: rest⟩ = some (path, data)) :
    data = cleanup (rowData c1 c2 c3 c4 c5)
    ∧ ∃ link, cellFindA c0 = some link ∧ link.href = some path ∧ path ≠ "" := by
  rcases hl : cellFindA c0 with _ | link
  · simp [parseRow, hl] at h
  · rcases hh : link.href with _ | hr
    · simp [parseRow, hl, hh] at h
    · by_cases he : hr = ""
      · simp [parseRow, hl, hh, he] at h
      · simp only [parseRow, hl, hh, if_neg he, Option.some.injEq, Prod.mk.injEq] at h
        exact ⟨h.2.symm, link, rfl, by rw [hh, h.1], h.1 ▸ he⟩

/-- Lookup of each key in the final (cleaned) record of a parsed row. -/
theorem parseRow_record_lookup {c0 c1 c2 c3 c4 c5 : Cell} {rest : List Cell}
    {path : String} {data : List (String × Value)}
    (h : parseRow ⟨c0 :: c1 :: c2 :: c3 :: c4 :: c5 :: rest⟩ = some (path, data))
    (k : String) :
    List.lookup k data =
      (List.lookup k (rowData c1 c2 c3 c4 c5)).bind
        (fun v => if v = Value.str "-" ∨ v = Value.str "" then none else some v) := by
  rw [(parseRow_inv h).1]
  exact lookup_cleanup (rowData_keys_nodup c1 c2 c3 c4 c5)

/-- `dict[k] = v` on a dict without the key appends the binding. -/
theorem dinsert_of_not_mem {β : Type} {acc : List (String × β)} {p : String}
    (d : β) (h : p ∉ acc.map Prod.fst) : dinsert acc p d = acc ++ [(p, d)] := by
  have hany : acc.any (fun q => q.1 = p) = false := by
    rw [List.any_eq_false]
    intro q hq
    simp only [decide_eq_true_eq]
    intro hqp
    exact h (hqp ▸ List.mem_map_of_mem Prod.fst hq)
  simp [dinsert, hany]

/-- The dict-building fold of both parsers equals `filterMap` when the
surviving keys are pairwise distinct (no two rows share a link target). -/
theorem foldl_dinsert {β : Type} (f : Row → Option (String × β)) :
    ∀ (rows : List Row) (acc : List (String × β)),
      (acc.map Prod.fst ++ (rows.filterMap f).map Prod.fst).Nodup →
      rows.foldl (dstep f) acc = acc ++ rows.filterMap f := by
  intro rows
  induction rows with
  | nil => intro acc _; simp
  | cons r rows ih =>
    intro acc h
    rcases hf : f r with _ | pd
    · have hstep : dstep f acc r = acc := by simp [dstep, hf]
      rw [List.foldl_cons, hstep, List.filterMap_cons, hf]
      exact ih acc (by simpa [List.filterMap_cons, hf] using h)
    · obtain ⟨p, d⟩ := pd
      have hfc : (r :: rows).filterMap f = (p, d) :: rows.filterMap f := by
        simp [List.filterMap_cons, hf]
      rw [hfc] at h
      simp only [List.map_cons, List.map_append] at h
      have hsplit := List.nodup_append.mp (by simpa using h)
      have hp_not : p ∉ acc.map Prod.fst := by
        intro hmem
        exact hsplit.2.2 hmem (by simp)
      have hstep : dstep f acc r = acc ++ [(p, d)] := by
        simp [dstep, hf, dinsert_of_not_mem d hp_not]
      have h' : ((acc ++ [(p, d)]).map Prod.fst
          ++ (rows.filterMap f).map Prod.fst).Nodup := by
        simpa [List.append_assoc] using h
      rw [List.foldl_cons, hstep, ih (acc ++ [(p, d)]) h', hfc]
      simp

/-- The number of surviving rows is the row count minus the skipped rows. -/
theorem length_filterMap_sub {α β : Type} (f : α → Option β) :
    ∀ l : List α,
      (l.filterMap f).length = l.length - l.countP (fun a => (f a).isNone) := by
  intro l
  induction l with
  | nil => rfl
  | cons a t ih =>
    have hle : t.countP (fun a => (f a).isNone) ≤ t.length := List.countP_le_length _
    rcases hf : f a with _ | b
    · simp [List.filterMap_cons, hf, List.countP_cons, ih]
    · simp [List.filterMap_cons, hf, List.countP_cons, ih]
      omega

/-- A row is kept by the overview parser exactly when it has at least six
cells and its first cell's first link has a non-empty target. -/
theorem parseRow_isSome_iff (r : Row) :
    (parseRow r).isSome = true ↔
      (6 ≤ r.cells.length ∧
        ∃ c0, r.cells.head? = some c0 ∧
          ∃ l, cellFindA c0 = some l ∧ ∃ hh, l.href = some hh ∧ hh ≠ "") := by
  obtain ⟨cells⟩ := r
  rcases cells with _ | ⟨c0, _ | ⟨c1, _ | ⟨c2, _ | ⟨c3, _ | ⟨c4, _ | ⟨c5, rest⟩⟩⟩⟩⟩⟩
  · simp [parseRow]
  · simp [parseRow]
  · simp [parseRow]
  · simp [parseRow]
  · simp [parseRow]
  · simp [parseRow]
  · rcases hl : cellFindA c0 with _ | link
    · simp [parseRow, hl]
    · rcases hh : link.href with _ | hr
      · simp [parseRow, hl, hh]
      · by_cases he : hr = "" <;> simp [parseRow, hl, hh, he]

/-- A kept row's record is keyed by the first cell's first link target. -/
theorem parseRow_key {r : Row} {p : String} {rec : List (String × Value)}
    (h : parseRow r = some (p, rec)) :
    ∃ c0, r.cells.head? = some c0 ∧ ∃ l, cellFindA c0 = some l ∧
      l.href = some p := by
  obtain ⟨cells⟩ := r
  rcases cells with _ | ⟨c0, _ | ⟨c1, _ | ⟨c2, _ | ⟨c3, _ | ⟨c4, _ | ⟨c5, rest⟩⟩⟩⟩⟩⟩
  · simp [parseRow] at h
  · simp [parseRow] at h
  · simp [parseRow] at h
  · simp [parseRow] at h
  · simp [parseRow] at h
  · simp [parseRow] at h
  · obtain ⟨-, link, hfa, hhref, -⟩ := parseRow_inv h
    exact ⟨c0, rfl, link, hfa, hhref⟩

/-! ## Claims -/

/-- **C1** — counterexample.  The claim says a field key is absent when the
numeric cell's `data-value` attribute is the dash placeholder or empty *or
missing altogether*, and that no emitted record ever binds a key to a
null/empty value.  On a row whose numeric cells lack the `data-value`
attribute, `cols[i].get("data-value")` is Python `None`, which survives the
`v not in ("-", "")` cleanup: the emitted record binds the keys to `None`. -/
theorem c1_counterexample :
    parse_overview_data docNoAttr =
      [("/x", [("snow_valley", Value.null), ("snow_mountain", Value.null),
               ("new_snow", Value.null)])] := by
  decide

/-- **C1** — amended.  In every emitted record no key is bound to the dash
placeholder `"-"` or the empty string, and a numeric field key is absent
whenever its cell's `data-value` is `"-"` or `""`; but when the attribute is
missing altogether the key is present, bound to a null value. -/
theorem c1_amended (c0 c1 c2 c3 c4 c5 : Cell) (rest : List Cell)
    (path : String) (data : List (String × Value))
    (h : parseRow ⟨c0 :: c1 :: c2 :: c3 :: c4 :: c5 :: rest⟩ = some (path, data)) :
    (∀ k v, (k, v) ∈ data → v ≠ Value.str "-" ∧ v ≠ Value.str "")
    ∧ ((c1.dataValue = some "-" ∨ c1.dataValue = some "") →
        List.lookup "snow_valley" data = none)
    ∧ ((c2.dataValue = some "-" ∨ c2.dataValue = some "") →
        List.lookup "snow_mountain" data = none)
    ∧ ((c3.dataValue = some "-" ∨ c3.dataValue = some "") →
        List.lookup "new_snow" data = none)
    ∧ (c1.dataValue = none →
        List.lookup "snow_valley" data = some Value.null) := by
  obtain ⟨hv, hm, hn, hst, hlo, hlt, hlu⟩ := rowData_lookup c1 c2 c3 c4 c5
  refine ⟨?_, ?_, ?_, ?_, ?_⟩
  · intro k v hkv
    rw [(parseRow_inv h).1] at hkv
    have := (List.mem_filter.mp hkv).2
    simpa using this
  · intro hc
    rw [parseRow_record_lookup h, hv]
    rcases hc with hc | hc <;> simp [hc, ofAttr]
  · intro hc
    rw [parseRow_record_lookup h, hm]
    rcases hc with hc | hc <;> simp [hc, ofAttr]
  · intro hc
    rw [parseRow_record_lookup h, hn]
    rcases hc with hc | hc <;> simp [hc, ofAttr]
  · intro hc
    rw [parseRow_record_lookup h, hv, hc]
    simp [ofAttr]

/-- **C1** — witness for the amended theorem, at the row whose cells lack
every `data-value` attribute. -/
theorem c1_amended_witness :
    List.lookup "snow_valley"
      [("snow_valley", Value.null), ("snow_mountain", Value.null),
       ("new_snow", Value.null)] = some Value.null :=
  (c1_amended ⟨none, "X", [⟨some "/x", "X"⟩], []⟩ ⟨none, "", [], []⟩
      ⟨none, "", [], []⟩ ⟨none, "", [], []⟩ ⟨none, "", [], []⟩ ⟨none, "", [], []⟩
      [] "/x"
      [("snow_valley", Value.null), ("snow_mountain", Value.null),
       ("new_snow", Value.null)]
      (by decide)).2.2.2.2 rfl

/-- **C2**: for every HTML input without a table tagged with the `snow`
class, `parse_overview_data` returns an empty mapping and does not raise
(the source logs a warning — the `StructureNotFound` condition — and
returns `{}`; logging is outside the model). -/
theorem c2_missing_snow_table (doc : Html)
    (h : ∀ t ∈ doc.tables, ¬ t.classes.contains "snow") :
    parse_overview_data doc = [] := by
  have hfind : findSnowTable doc = none := by
    rw [findSnowTable, List.find?_eq_none]
    intro t ht
    simpa using h t ht
  simp [parse_overview_data, hfind]

/-- **C2** — witness: a document whose only table is not a snow table. -/
theorem c2_witness : parse_overview_data ⟨[⟨["other"], [⟨[]⟩]⟩]⟩ = [] :=
  c2_missing_snow_table ⟨[⟨["other"], [⟨[]⟩]⟩]⟩ (by decide)

/-- **C3**: with a well-formed snow table (no two surviving rows sharing a
link target), the parser skips the header row, skips each remaining row
that has fewer than 6 cells or whose first cell lacks a hyperlink with a
non-empty target, and returns exactly one entry per surviving row — keyed
by its link target (`parseRow`'s key) — so the entry count is the data row
count minus the skipped rows. -/
theorem c3_one_entry_per_row (doc : Html) (t : Table)
    (h : findSnowTable doc = some t)
    (hnd : (((t.rows.drop 1).filterMap parseRow).map Prod.fst).Nodup) :
    parse_overview_data doc = (t.rows.drop 1).filterMap parseRow
    ∧ (parse_overview_data doc).length
        = (t.rows.drop 1).length
          - (t.rows.drop 1).countP (fun r => (parseRow r).isNone)
    ∧ (∀ r : Row, (parseRow r).isSome = true ↔
        (6 ≤ r.cells.length ∧ ∃ c0, r.cells.head? = some c0 ∧
          ∃ l, cellFindA c0 = some l ∧ ∃ hh, l.href = some hh ∧ hh ≠ ""))
    ∧ (∀ (r : Row) (p : String) (rec : List (String × Value)),
        parseRow r = some (p, rec) →
        ∃ c0, r.cells.head? = some c0 ∧
          ∃ l, cellFindA c0 = some l ∧ l.href = some p) := by
  have h1 : parse_overview_data doc = (t.rows.drop 1).filterMap parseRow := by
    rw [parse_overview_data.eq_def, h]
    simpa using foldl_dinsert parseRow (t.rows.drop 1) [] (by simpa using hnd)
  refine ⟨h1, ?_, fun r => parseRow_isSome_iff r, fun r p rec hr => parseRow_key hr⟩
  rw [h1, length_filterMap_sub]

/-- **C3** — witness at the Scenario A document. -/
theorem c3_witness :
    parse_overview_data docA = (tableA.rows.drop 1).filterMap parseRow :=
  (c3_one_entry_per_row docA tableA (by decide) (by decide)).1

/-- **C4**: lift counts come from the lift cell's stripped visible text.
A text of the shape `<open>/<total>` (split on `/` into exactly two parts)
has each side converted independently, so a non-numeric side is omitted
while the other valid side is kept; a bare digit string yields only the
open count; any other text yields neither lift field, while the row's
last-update field is still populated. -/
theorem c4_lift_counts (c0 c1 c2 c3 c4 c5 : Cell) (rest : List Cell)
    (path : String) (data : List (String × Value))
    (h : parseRow ⟨c0 :: c1 :: c2 :: c3 :: c4 :: c5 :: rest⟩ = some (path, data)) :
    (∀ a b : List Char,
        (pyStrip c4.text).data.contains '/' = true →
        splitChar '/' (pyStrip c4.text).data = [a, b] →
        List.lookup "lifts_open_count" data
            = (strToInt (pyStrip ⟨a⟩)).map Value.int
        ∧ List.lookup "lifts_total_count" data
            = (strToInt (pyStrip ⟨b⟩)).map Value.int)
    ∧ ((pyStrip c4.text).data.contains '/' = false →
        isAllDigits (pyStrip c4.text) = true →
        List.lookup "lifts_open_count" data
            = (strToInt (pyStrip c4.text)).map Value.int
        ∧ List.lookup "lifts_total_count" data = none)
    ∧ ((pyStrip c4.text).data.contains '/' = false →
        isAllDigits (pyStrip c4.text) = false →
        List.lookup "lifts_open_count" data = none
        ∧ List.lookup "lifts_total_count" data = none
        ∧ (lastUpdateVal c5 ≠ Value.str "-" → lastUpdateVal c5 ≠ Value.str "" →
            List.lookup "last_update" data = some (lastUpdateVal c5))) := by
  obtain ⟨hv, hm, hn, hst, hlo, hlt, hlu⟩ := rowData_lookup c1 c2 c3 c4 c5
  refine ⟨?_, ?_, ?_⟩
  · intro a b hcont hsplit
    have hpl : parseLifts (pyStrip c4.text)
        = (strToInt (pyStrip ⟨a⟩), strToInt (pyStrip ⟨b⟩)) := by
      rw [parseLifts, if_pos hcont, hsplit]
    constructor
    · rw [parseRow_record_lookup h, hlo, hpl]
      rcases strToInt (pyStrip ⟨a⟩) with _ | n <;> simp
    · rw [parseRow_record_lookup h, hlt, hpl]
      rcases strToInt (pyStrip ⟨b⟩) with _ | n <;> simp
  · intro hcont hdig
    have hpl : parseLifts (pyStrip c4.text) = (strToInt (pyStrip c4.text), none) := by
      rw [parseLifts, if_neg (by simpa using hcont), if_pos hdig]
    constructor
    · rw [parseRow_record_lookup h, hlo, hpl]
      rcases strToInt (pyStrip c4.text) with _ | n <;> simp
    · rw [parseRow_record_lookup h, hlt, hpl]
      simp
  · intro hcont hdig
    have hpl : parseLifts (pyStrip c4.text) = (none, none) := by
      rw [parseLifts, if_neg (by simpa using hcont), if_neg (by simp [hdig])]
    refine ⟨?_, ?_, ?_⟩
    · rw [parseRow_record_lookup h, hlo, hpl]
      simp
    · rw [parseRow_record_lookup h, hlt, hpl]
      simp
    · intro hd1 hd2
      rw [parseRow_record_lookup h, hlu]
      simp [hd1, hd2]

/-- **C4** — witness at the row whose lift cell text is `"3/x"`: the
numeric side is kept, the non-numeric side is omitted. -/
theorem c4_witness :
    List.lookup "lifts_open_count" recMixedLifts
        = (strToInt (pyStrip ⟨['3']⟩)).map Value.int
    ∧ List.lookup "lifts_total_count" recMixedLifts
        = (strToInt (pyStrip ⟨['x']⟩)).map Value.int :=
  (c4_lift_counts ⟨none, "Y", [⟨some "/y", "Y"⟩], []⟩
      ⟨some "1", "1", [], []⟩ ⟨some "1", "1", [], []⟩ ⟨some "1", "1", [], []⟩
      ⟨none, "3/x", [], []⟩ ⟨some "t", "t", [], []⟩ [] "/y" recMixedLifts
      (by decide)).1 ['3'] ['x'] (by decide) (by decide)

/-- **C5** — Scenario A: the concrete overview row with link target `/x`,
valley `45`, mountain `-`, new snow `5`, lift text `3/8`, an open status
marker, and last-update `2024-01-15T08:00` parses to exactly the record
with valley 45, new snow 5, lifts 3/8, status Open and that timestamp,
the mountain field omitted.  (Numeric `data-value` strings are carried as
strings in the record; the surrounding sensor layer converts digit strings
to integers for display.) -/
theorem c5_scenario_a : parse_overview_data docA = [("/x", recA)] := by
  decide

/-- **C6**: parsing is deterministic — the parsers are pure functions of
their input, so parsing the same HTML twice yields identical records; and
where text encodes "today", the date normalizer resolves it against the
explicitly supplied reference date (the result's calendar date is exactly
the reference date), not any ambient clock (the model has none). -/
theorem c6_deterministic :
    (∀ doc : Html, parse_overview_data doc = parse_overview_data doc)
    ∧ (∀ (text kw : String) (d : Date) (ts : Timestamp),
        containsCI text kw = true →
        parse_relative_or_absolute text kw d = some ts →
        ts.date = d) := by
  refine ⟨fun _ => rfl, ?_⟩
  intro text kw d ts hci hp
  simp only [parse_relative_or_absolute, hci, if_true] at hp
  rcases hsuf : suffixAfter (lowerChars text.data) (lowerChars kw.data)
      with _ | rest
  · rw [hsuf] at hp
    cases hp
  · rw [hsuf] at hp
    simp only [Option.map_eq_some'] at hp
    obtain ⟨hm, -, hts⟩ := hp
    rw [← hts]

/-- **C6** — witness: `"Heute, 11:52"` with today-keyword `"heute"` and
reference date 2024-01-15 resolves to that reference date. -/
theorem c6_witness :
    (⟨⟨2024, 1, 15⟩, 11, 52⟩ : Timestamp).date = ⟨2024, 1, 15⟩ :=
  c6_deterministic.2 "Heute, 11:52" "heute" ⟨2024, 1, 15⟩
    ⟨⟨2024, 1, 15⟩, 11, 52⟩ (by decide) (by decide)

/-- **C7** — counterexample.  The claim says `get_ski_areas` applies the
overview parser's row-skipping rules, in particular skipping rows with
fewer than 6 cells.  It does not: a single-cell row holding a link yields a
directory entry (while the overview parser skips that same row). -/
theorem c7_counterexample :
    rowShort.cells.length = 1
    ∧ get_ski_areas_parse docShort = [("/a", "A")]
    ∧ parse_overview_data docShort = [] := by
  decide

/-- **C7** — amended.  `get_ski_areas` locates the `snow` table and skips
the header row like the overview parser, and returns an empty mapping when
the table is absent; but it applies no minimum-cell-count rule: a row
contributes an entry exactly when its first hyperlink (anywhere in the row,
not just the first cell) has a non-empty target and non-empty stripped
text, the entry mapping that target to the text. -/
theorem c7_amended :
    (∀ doc : Html, (∀ t ∈ doc.tables, ¬ t.classes.contains "snow") →
        get_ski_areas_parse doc = [])
    ∧ (∀ (doc : Html) (t : Table), findSnowTable doc = some t →
        (((t.rows.drop 1).filterMap resortEntry).map Prod.fst).Nodup →
        get_ski_areas_parse doc = (t.rows.drop 1).filterMap resortEntry)
    ∧ (∀ (r : Row) (p n : String), resortEntry r = some (p, n) →
        ∃ l, rowFindA r = some l ∧ l.href = some p ∧ p ≠ ""
          ∧ pyStrip l.text = n ∧ n ≠ "") := by
  refine ⟨?_, ?_, ?_⟩
  · intro doc h
    have hfind : findSnowTable doc = none := by
      rw [findSnowTable, List.find?_eq_none]
      intro t ht
      simpa using h t ht
    simp [get_ski_areas_parse, hfind]
  · intro doc t h hnd
    rw [get_ski_areas_parse.eq_def, h]
    simpa using foldl_dinsert resortEntry (t.rows.drop 1) [] (by simpa using hnd)
  · intro r p n h
    rcases hl : rowFindA r with _ | link
    · simp [resortEntry, hl] at h
    · rcases hh : link.href with _ | hr
      · simp [resortEntry, hl, hh] at h
      · by_cases he : hr = ""
        · simp [resortEntry, hl, hh, he] at h
        · by_cases ht : pyStrip link.text = ""
          · simp [resortEntry, hl, hh, he, ht] at h
          · simp only [resortEntry, hl, hh, if_neg he, if_neg ht,
              Option.some.injEq, Prod.mk.injEq] at h
            exact ⟨link, rfl, by rw [hh, h.1], h.1 ▸ he, h.2, h.2 ▸ ht⟩

/-- **C7** — witness for the amended theorem, at the document whose only
data row has a single cell. -/
theorem c7_amended_witness :
    get_ski_areas_parse docShort = (tableShort.rows.drop 1).filterMap resortEntry :=
  c7_amended.2.1 docShort tableShort (by decide) (by decide)

/-- **C8**: the last-update field takes the final cell's machine-readable
`data-value` attribute when the attribute is present, and otherwise falls
back to that cell's stripped visible text (in both cases subject to the
record-wide rule that a `"-"`/`""` value drops the key, which claim C1
covers). -/
theorem c8_last_update (c0 c1 c2 c3 c4 c5 : Cell) (rest : List Cell)
    (path : String) (data : List (String × Value))
    (h : parseRow ⟨c0 :: c1 :: c2 :: c3 :: c4 :: c5 :: rest⟩ = some (path, data)) :
    (∀ v, c5.dataValue = some v → v ≠ "-" → v ≠ "" →
        List.lookup "last_update" data = some (Value.str v))
    ∧ (c5.dataValue = none → pyStrip c5.text ≠ "-" → pyStrip c5.text ≠ "" →
        List.lookup "last_update" data = some (Value.str (pyStrip c5.text))) := by
  obtain ⟨hv, hm, hn, hst, hlo, hlt, hlu⟩ := rowData_lookup c1 c2 c3 c4 c5
  constructor
  · intro v hattr h1 h2
    rw [parseRow_record_lookup h, hlu, lastUpdateVal, hattr]
    simp [h1, h2]
  · intro hattr h1 h2
    rw [parseRow_record_lookup h, hlu, lastUpdateVal, hattr]
    simp [h1, h2]

/-- **C8** — witness at the Scenario A row: the attribute is present and
supplies the value. -/
theorem c8_witness :
    List.lookup "last_update" recA = some (Value.str "2024-01-15T08:00") :=
  (c8_last_update ⟨none, "Resort X", [⟨some "/x", "Resort X"⟩], []⟩
      ⟨some "45", "45", [], []⟩ ⟨some "-", "-", [], []⟩ ⟨some "5", "5", [], []⟩
      ⟨none, "3/8", [], [⟨["icon-status", "icon-status1"]⟩]⟩
      ⟨some "2024-01-15T08:00", "15.01., 08:00", [], []⟩ [] "/x" recA
      (by decide)).1 "2024-01-15T08:00" rfl (by decide) (by decide)

/-- **C9**: the status field is determined solely by the nested
`icon-status` marker div of the lift cell: the open marker class
(`icon-status1`) yields `"Open"`, otherwise the closed marker class
(`icon-status0`) yields `"Closed"`, any other recognized marker yields
`"Unknown"`, and when the marker div is absent the status key is left
unset. -/
theorem c9_status (c0 c1 c2 c3 c4 c5 : Cell) (rest : List Cell)
    (path : String) (data : List (String × Value))
    (h : parseRow ⟨c0 :: c1 :: c2 :: c3 :: c4 :: c5 :: rest⟩ = some (path, data)) :
    (∀ d, findStatusDiv c4 = some d →
        (d.classes.contains "icon-status1" = true →
          List.lookup "status" data = some (Value.str "Open"))
      ∧ (d.classes.contains "icon-status1" = false →
          d.classes.contains "icon-status0" = true →
          List.lookup "status" data = some (Value.str "Closed"))
      ∧ (d.classes.contains "icon-status1" = false →
          d.classes.contains "icon-status0" = false →
          List.lookup "status" data = some (Value.str "Unknown")))
    ∧ (findStatusDiv c4 = none → List.lookup "status" data = none) := by
  obtain ⟨hv, hm, hn, hst, hlo, hlt, hlu⟩ := rowData_lookup c1 c2 c3 c4 c5
  constructor
  · intro d hd
    refine ⟨?_, ?_, ?_⟩
    · intro h1
      have h1' : "icon-status1" ∈ d.classes := by simpa using h1
      rw [parseRow_record_lookup h, hst, statusVal, hd]
      simp [statusName, h1']
    · intro h1 h0
      have h1' : "icon-status1" ∉ d.classes := by simpa using h1
      have h0' : "icon-status0" ∈ d.classes := by simpa using h0
      rw [parseRow_record_lookup h, hst, statusVal, hd]
      simp [statusName, h1', h0']
    · intro h1 h0
      have h1' : "icon-status1" ∉ d.classes := by simpa using h1
      have h0' : "icon-status0" ∉ d.classes := by simpa using h0
      rw [parseRow_record_lookup h, hst, statusVal, hd]
      simp [statusName, h1', h0']
  · intro hd
    rw [parseRow_record_lookup h, hst, statusVal, hd]
    rfl

/-- **C9** — witness at the Scenario A row: the open marker yields
`"Open"`. -/
theorem c9_witness : List.lookup "status" recA = some (Value.str "Open") :=
  ((c9_status ⟨none, "Resort X", [⟨some "/x", "Resort X"⟩], []⟩
      ⟨some "45", "45", [], []⟩ ⟨some "-", "-", [], []⟩ ⟨some "5", "5", [], []⟩
      ⟨none, "3/8", [], [⟨["icon-status", "icon-status1"]⟩]⟩
      ⟨some "2024-01-15T08:00", "15.01., 08:00", [], []⟩ [] "/x" recA
      (by decide)).1 ⟨["icon-status", "icon-status1"]⟩ (by decide)).1 (by decide)

/-- **C10**: `get_ski_areas` never lets an exception escape to its caller —
its whole body runs under `try`/`except Exception`, so for every fetch
outcome the call returns successfully, and a fetch error yields the empty
mapping. -/
theorem c10_no_exception_escape :
    (∀ fetched : Except String Html, exceptIsOk (get_ski_areas fetched) = true)
    ∧ (∀ e : String, get_ski_areas (Except.error e) = Except.ok []) := by
  constructor
  · intro fetched
    rcases fetched with e | doc <;> rfl
  · intro e
    rfl

end Bergfex
